import Mathlib

/-!
Verification of the design-pattern examples in Design-Pattern-TS.

Each TypeScript example is shallowly embedded: classes become structures or
inductives, methods become Lean functions, the mutable fields of a context
become explicit state passing, and the side-effecting `update`/`draw` calls
are recorded as explicit invocation lists or output strings.  JavaScript
numbers are modelled as rationals (ℚ), which is faithful for the arithmetic
the examples perform.
-/

namespace DesignPatternTS

/-! ## Observer: WeatherStation (src/unnamed/part_000)

`interface WeatherData { temperature: number; humidity: number; }`
Observers are identified by reference identity; we model a reference as a
natural-number id.  An `update` call is recorded as a pair
(observer id, data snapshot) in an invocation list, in call order. -/

structure WeatherData where
  temperature : ℚ
  humidity : ℚ
deriving DecidableEq, Repr

/-- A reference to an `Observer` object; reference identity is id equality. -/
abbrev ObserverRef := ℕ

structure WeatherStation where
  observers : List ObserverRef
  data : WeatherData
deriving DecidableEq, Repr

/-- `private data: WeatherData = {temperature: 0, humidity: 0}` with the
initially empty observer list. -/
def WeatherStation.init : WeatherStation :=
  { observers := [], data := { temperature := 0, humidity := 0 } }

/-- `subscribe(observer) { this.observers.push(observer); }` -/
def WeatherStation.subscribe (s : WeatherStation) (o : ObserverRef) : WeatherStation :=
  { s with observers := s.observers ++ [o] }

/-- `unsubscribe(observer) { this.observers = this.observers.filter((obs) => obs !== observer); }` -/
def WeatherStation.unsubscribe (s : WeatherStation) (o : ObserverRef) : WeatherStation :=
  { s with observers := s.observers.filter (fun obs => obs ≠ o) }

/-- `notify() { this.observers.forEach((observer) => observer.update(this.data)) }`:
returns the list of `update` invocations (observer, argument), in call order. -/
def WeatherStation.notify (s : WeatherStation) : List (ObserverRef × WeatherData) :=
  s.observers.map (fun observer => (observer, s.data))

/-- `setWeatherData(data) { this.data = data; this.notify(); }`:
returns the new station state and the invocation list of the triggered
notification. -/
def WeatherStation.setWeatherData (s : WeatherStation) (d : WeatherData) :
    WeatherStation × List (ObserverRef × WeatherData) :=
  let s' : WeatherStation := { s with data := d }
  (s', s'.notify)

/-! ## Strategy: Cart and discount strategies (src/Behavioral/Strategy.ts)

`interface Strategy { doDiscount(price: number): number; }` — a strategy is
its `doDiscount` function. -/

abbrev Strategy := ℚ → ℚ

/-- `FlatDiscountStrategy`: `doDiscount(price) { return price - this.discountAmount; }` -/
def FlatDiscountStrategy (discountAmount : ℚ) : Strategy :=
  fun price => price - discountAmount

/-- `NoDiscountStrategy`: `doDiscount(price) { return price; }` -/
def NoDiscountStrategy : Strategy := fun price => price

/-- `PercentageDiscountStrategy`: `doDiscount(price) { return price * (1 - (this.discountRate / 100)); }` -/
def PercentageDiscountStrategy (discountRate : ℚ) : Strategy :=
  fun price => price * (1 - discountRate / 100)

structure Item where
  name : String
  price : ℚ
  quantity : ℚ
deriving Repr

structure Cart where
  items : List Item
  strategy : Strategy

/-- `addItem(item) { this.items.push(item); }` -/
def Cart.addItem (c : Cart) (item : Item) : Cart :=
  { c with items := c.items ++ [item] }

/-- `setDiscountStrategy(strategy) { this.strategy = strategy; }` -/
def Cart.setDiscountStrategy (c : Cart) (strategy : Strategy) : Cart :=
  { c with strategy := strategy }

/-- `getTotalPrice() { let total = 0; this.items.forEach((item) => total += item.price * item.quantity); return this.strategy.doDiscount(total); }` -/
def Cart.getTotalPrice (c : Cart) : ℚ :=
  let total := c.items.foldl (fun total item => total + item.price * item.quantity) 0
  c.strategy total

/-! ## Decorator: Coffee (src/Structural/Decorator.ts) -/

inductive Coffee where
  | PlainCoffee : Coffee
  | MilkDecorator : Coffee → Coffee
  | SugarDecorator : Coffee → Coffee
  | CaramelDecorator : Coffee → Coffee
deriving DecidableEq, Repr

/-- `getCost`: `PlainCoffee` returns `100`; `MilkDecorator` returns
`this.coffee.getCost() + 50`; `SugarDecorator` `+ 20`; `CaramelDecorator` `+ 100`. -/
def Coffee.getCost : Coffee → ℚ
  | .PlainCoffee => 100
  | .MilkDecorator coffee => coffee.getCost + 50
  | .SugarDecorator coffee => coffee.getCost + 20
  | .CaramelDecorator coffee => coffee.getCost + 100

/-- `getDescription`: `PlainCoffee` returns `"Plain Coffee"`; each decorator
returns `this.coffee.getDescription()` with its suffix appended. -/
def Coffee.getDescription : Coffee → String
  | .PlainCoffee => "Plain Coffee"
  | .MilkDecorator coffee => coffee.getDescription ++ " Milk"
  | .SugarDecorator coffee => coffee.getDescription ++ " Sugar"
  | .CaramelDecorator coffee => coffee.getDescription ++ " Caramel"

/-- The three concrete decorator layers, viewed abstractly so that chains of
layers can be compared across wrap orders. -/
inductive Layer where
  | milk : Layer
  | sugar : Layer
  | caramel : Layer
deriving DecidableEq, Repr

/-- Wrapping a coffee in one decorator layer (`new XDecorator(coffee)`). -/
def Layer.wrap : Layer → Coffee → Coffee
  | .milk, c => .MilkDecorator c
  | .sugar, c => .SugarDecorator c
  | .caramel, c => .CaramelDecorator c

/-- The fixed cost increment of each decorator layer. -/
def Layer.increment : Layer → ℚ
  | .milk => 50
  | .sugar => 20
  | .caramel => 100

/-- The fixed description suffix of each decorator layer. -/
def Layer.suffix : Layer → String
  | .milk => " Milk"
  | .sugar => " Sugar"
  | .caramel => " Caramel"

/-- Wrapping a base coffee in a chain of layers, innermost layer first. -/
def applyLayers (ls : List Layer) (c : Coffee) : Coffee :=
  ls.foldl (fun acc l => l.wrap acc) c

/-! ## Factory: ShapeFactory (src/Creational/AbstractFactory.ts, Factory part) -/

inductive Shape where
  | Circle : Shape
  | Rectangle : Shape
  | Square : Shape
deriving DecidableEq, Repr

/-- The console line printed by each concrete shape's `draw()`. -/
def Shape.drawOutput : Shape → String
  | .Circle => "Drawing circle."
  | .Rectangle => "Drawing rectangle."
  | .Square => "Drawing square."

/-- `ShapeFactory.createShape(type)`: the `switch` over the discriminator,
with `default: return new Circle();`. -/
def ShapeFactory.createShape (type : String) : Shape :=
  if type = "Circle" then .Circle
  else if type = "Rectangle" then .Rectangle
  else if type = "Square" then .Square
  else .Circle

/-! ## Builder: Pizza and CustomPizzaBuilder (src/Creational/AbstractFactory.ts) -/

structure Pizza where
  size : String
  crust : String
  toppings : List String
  sauce : String
deriving DecidableEq, Repr

structure CustomPizzaBuilder where
  size : String := "regular"
  crust : String := "thin"
  toppings : List String := []
  sauce : String := "tomato"
deriving DecidableEq, Repr

/-- `setSize(size) { this.size = size; return this; }` -/
def CustomPizzaBuilder.setSize (b : CustomPizzaBuilder) (size : String) : CustomPizzaBuilder :=
  { b with size := size }

/-- `setCrust(crust) { this.crust = crust; return this; }` -/
def CustomPizzaBuilder.setCrust (b : CustomPizzaBuilder) (crust : String) : CustomPizzaBuilder :=
  { b with crust := crust }

/-- `addTopping(topping) { this.toppings.push(topping); return this; }` -/
def CustomPizzaBuilder.addTopping (b : CustomPizzaBuilder) (topping : String) : CustomPizzaBuilder :=
  { b with toppings := b.toppings ++ [topping] }

/-- `setSauce(sauce) { this.sauce = sauce; return this; }` -/
def CustomPizzaBuilder.setSauce (b : CustomPizzaBuilder) (sauce : String) : CustomPizzaBuilder :=
  { b with sauce := sauce }

/-- `build() { return new Pizza(this.size, this.crust, this.toppings, this.sauce); }` -/
def CustomPizzaBuilder.build (b : CustomPizzaBuilder) : Pizza :=
  { size := b.size, crust := b.crust, toppings := b.toppings, sauce := b.sauce }

/-- One fluent setter call on the builder, reified so that sequences of calls
(and their reorderings) can be compared. -/
inductive BuilderCall where
  | setSize (size : String)
  | setCrust (crust : String)
  | addTopping (topping : String)
  | setSauce (sauce : String)
deriving DecidableEq, Repr

/-- Executing one reified setter call on the builder. -/
def BuilderCall.apply (b : CustomPizzaBuilder) : BuilderCall → CustomPizzaBuilder
  | .setSize size => b.setSize size
  | .setCrust crust => b.setCrust crust
  | .addTopping topping => b.addTopping topping
  | .setSauce sauce => b.setSauce sauce

/-- Executing a sequence of reified setter calls, left to right. -/
def runCalls (b : CustomPizzaBuilder) (calls : List BuilderCall) : CustomPizzaBuilder :=
  calls.foldl BuilderCall.apply b

/-- The argument of a call when it is `setSize`, else `none`. -/
def BuilderCall.sizeArg : BuilderCall → Option String
  | .setSize size => some size
  | _ => none

/-- The argument of a call when it is `setCrust`, else `none`. -/
def BuilderCall.crustArg : BuilderCall → Option String
  | .setCrust crust => some crust
  | _ => none

/-- The argument of a call when it is `addTopping`, else `none`. -/
def BuilderCall.toppingArg : BuilderCall → Option String
  | .addTopping topping => some topping
  | _ => none

/-- The argument of a call when it is `setSauce`, else `none`. -/
def BuilderCall.sauceArg : BuilderCall → Option String
  | .setSauce sauce => some sauce
  | _ => none

/-! ## Singleton: DatabaseConnection (src/Creational/AbstractFactory.ts, Singleton part)

The static fields `instance` and `lock` and the count of constructor runs
form the process state.  `Date.now()` used by the constructor is modelled by
a `now` value carried in the state; an instance is identified by the id the
constructor computed, which is what reference identity distinguishes here
(at most one instance is ever constructed). -/

structure SingletonState where
  instance? : Option String
  lock : Bool
  ctorRuns : ℕ
  now : ℕ
deriving DecidableEq, Repr

/-- The state at process start: `instance = null`, `lock = false`, the
constructor has never run. -/
def SingletonState.start (now : ℕ) : SingletonState :=
  { instance? := none, lock := false, ctorRuns := 0, now := now }

/-- `private constructor() { this.id = Date.now().toString(); }` — returns the
new instance's id and counts the run. -/
def DatabaseConnection.construct (s : SingletonState) : SingletonState × String :=
  ({ s with ctorRuns := s.ctorRuns + 1 }, toString s.now)

/-- `getInstance()`: `if (this.instance === null) { if (!this.lock) { this.lock = true; this.instance = new DatabaseConnection(); } } return this.instance!;`
The returned `Option` is `none` exactly when `this.instance!` asserts on a
still-null field. -/
def DatabaseConnection.getInstance (s : SingletonState) : SingletonState × Option String :=
  if s.instance? = none then
    if !s.lock then
      let (s₁, inst) := DatabaseConnection.construct s
      let s₂ := { s₁ with lock := true, instance? := some inst }
      (s₂, s₂.instance?)
    else (s, s.instance?)
  else (s, s.instance?)

/-! ## Helper lemmas -/

/-- The cart's `forEach` accumulation equals the arithmetic sum of
price × quantity over the items. -/
theorem foldl_price_qty_eq_sum (l : List Item) (init : ℚ) :
    l.foldl (fun total item => total + item.price * item.quantity) init
      = init + (l.map (fun item => item.price * item.quantity)).sum := by
  induction l generalizing init with
  | nil => simp
  | cons a l ih => simp [ih]; ring

/-- Cost of a layer chain: base cost plus the sum of the layers' increments. -/
theorem applyLayers_getCost (ls : List Layer) (c : Coffee) :
    (applyLayers ls c).getCost = c.getCost + (ls.map Layer.increment).sum := by
  induction ls generalizing c with
  | nil => simp [applyLayers]
  | cons l ls ih =>
      have hwrap : (l.wrap c).getCost = c.getCost + l.increment := by
        cases l <;> simp [Layer.wrap, Layer.increment, Coffee.getCost]
      have hstep : applyLayers (l :: ls) c = applyLayers ls (l.wrap c) := rfl
      rw [hstep, ih, hwrap, List.map_cons, List.sum_cons]
      ring

/-- Description of a layer chain: the base description with each layer's
suffix appended in nesting order, innermost first. -/
theorem applyLayers_getDescription (ls : List Layer) (c : Coffee) :
    (applyLayers ls c).getDescription
      = ls.foldl (fun d l => d ++ l.suffix) c.getDescription := by
  induction ls generalizing c with
  | nil => simp [applyLayers]
  | cons l ls ih =>
      have hwrap : (l.wrap c).getDescription = c.getDescription ++ l.suffix := by
        cases l <;> simp [Layer.wrap, Layer.suffix, Coffee.getDescription]
      have hstep : applyLayers (l :: ls) c = applyLayers ls (l.wrap c) := rfl
      rw [hstep, ih, hwrap]
      rfl

/-- The `size` field after a call sequence: the argument of the last `setSize`
call, or the prior value if none occurs.  Analogous facts for `crust` and
`sauce` are proved below; together they are the frame property of the
builder's setters. -/
theorem runCalls_size (b : CustomPizzaBuilder) (calls : List BuilderCall) :
    (runCalls b calls).size = (calls.filterMap BuilderCall.sizeArg).getLastD b.size := by
  induction calls generalizing b with
  | nil => rfl
  | cons k calls ih =>
      rw [show runCalls b (k :: calls) = runCalls (BuilderCall.apply b k) calls from rfl, ih]
      cases k <;>
        simp only [BuilderCall.apply, CustomPizzaBuilder.setSize, CustomPizzaBuilder.setCrust,
          CustomPizzaBuilder.addTopping, CustomPizzaBuilder.setSauce, List.filterMap_cons,
          BuilderCall.sizeArg, List.getLastD_cons]

/-- The `crust` field after a call sequence: last `setCrust` argument wins. -/
theorem runCalls_crust (b : CustomPizzaBuilder) (calls : List BuilderCall) :
    (runCalls b calls).crust = (calls.filterMap BuilderCall.crustArg).getLastD b.crust := by
  induction calls generalizing b with
  | nil => rfl
  | cons k calls ih =>
      rw [show runCalls b (k :: calls) = runCalls (BuilderCall.apply b k) calls from rfl, ih]
      cases k <;>
        simp only [BuilderCall.apply, CustomPizzaBuilder.setSize, CustomPizzaBuilder.setCrust,
          CustomPizzaBuilder.addTopping, CustomPizzaBuilder.setSauce, List.filterMap_cons,
          BuilderCall.crustArg, List.getLastD_cons]

/-- The `sauce` field after a call sequence: last `setSauce` argument wins. -/
theorem runCalls_sauce (b : CustomPizzaBuilder) (calls : List BuilderCall) :
    (runCalls b calls).sauce = (calls.filterMap BuilderCall.sauceArg).getLastD b.sauce := by
  induction calls generalizing b with
  | nil => rfl
  | cons k calls ih =>
      rw [show runCalls b (k :: calls) = runCalls (BuilderCall.apply b k) calls from rfl, ih]
      cases k <;>
        simp only [BuilderCall.apply, CustomPizzaBuilder.setSize, CustomPizzaBuilder.setCrust,
          CustomPizzaBuilder.addTopping, CustomPizzaBuilder.setSauce, List.filterMap_cons,
          BuilderCall.sauceArg, List.getLastD_cons]

/-- The `toppings` field after a call sequence: the prior list with the
`addTopping` arguments appended in call order. -/
theorem runCalls_toppings (b : CustomPizzaBuilder) (calls : List BuilderCall) :
    (runCalls b calls).toppings = b.toppings ++ calls.filterMap BuilderCall.toppingArg := by
  induction calls generalizing b with
  | nil => simp [runCalls]
  | cons k calls ih =>
      rw [show runCalls b (k :: calls) = runCalls (BuilderCall.apply b k) calls from rfl, ih]
      cases k <;>
        simp [BuilderCall.apply, BuilderCall.toppingArg,
          CustomPizzaBuilder.setSize, CustomPizzaBuilder.setCrust,
          CustomPizzaBuilder.addTopping, CustomPizzaBuilder.setSauce]

/-- The sequence of setter calls the driver makes for the custom pizza. -/
def canonicalCalls : List BuilderCall :=
  [.setSize "Large", .setCrust "Thin", .addTopping "Cheese",
   .addTopping "Pepperoni", .setSauce "Spicy"]

/-! ## Claim theorems -/

/-- C1: for every list of N subscribed observers and every single call to
`setWeatherData` with a new reading, exactly N `update` invocations occur,
each observer receives the identical new-state value, and the invocations
happen in subscription (insertion) order. -/
theorem setWeatherData_broadcasts_to_all (s : WeatherStation) (d : WeatherData) :
    (s.setWeatherData d).2 = s.observers.map (fun o => (o, d)) ∧
    (s.setWeatherData d).2.length = s.observers.length ∧
    (∀ inv ∈ (s.setWeatherData d).2, inv.2 = d) ∧
    (s.setWeatherData d).2.map Prod.fst = s.observers := by
  refine ⟨rfl, by simp [WeatherStation.setWeatherData, WeatherStation.notify], ?_, ?_⟩
  · intro inv hinv
    simp only [WeatherStation.setWeatherData, WeatherStation.notify, List.mem_map] at hinv
    obtain ⟨o, _, rfl⟩ := hinv
    rfl
  · have hcomp : (Prod.fst ∘ fun (observer : ObserverRef) => (observer, d)) = id := rfl
    show ((s.setWeatherData d).1.notify).map Prod.fst = s.observers
    rw [show (s.setWeatherData d).1.notify
        = s.observers.map (fun observer => (observer, d)) from rfl]
    rw [List.map_map, hcomp, List.map_id]

theorem setWeatherData_broadcasts_to_all_witness :
    ((WeatherStation.mk [1, 2, 3] ⟨0, 0⟩).setWeatherData ⟨35, 20⟩).2
      = [(1, ⟨35, 20⟩), (2, ⟨35, 20⟩), (3, ⟨35, 20⟩)] :=
  (setWeatherData_broadcasts_to_all (WeatherStation.mk [1, 2, 3] ⟨0, 0⟩) ⟨35, 20⟩).1

/-- C2: from process start, two `getInstance` calls return the same instance,
and a call made in any state that already holds an instance returns that very
instance without re-running the constructor (the state, including the
constructor-run count, is unchanged). -/
theorem getInstance_single_construction (now : ℕ) (s : SingletonState) (i : String)
    (h : s.instance? = some i) :
    DatabaseConnection.getInstance s = (s, some i) ∧
    (DatabaseConnection.getInstance (SingletonState.start now)).2
      = (DatabaseConnection.getInstance
          (DatabaseConnection.getInstance (SingletonState.start now)).1).2 ∧
    (DatabaseConnection.getInstance (SingletonState.start now)).2 = some (toString now) ∧
    (DatabaseConnection.getInstance (SingletonState.start now)).1.ctorRuns = 1 ∧
    (DatabaseConnection.getInstance
      (DatabaseConnection.getInstance (SingletonState.start now)).1).1.ctorRuns = 1 := by
  refine ⟨by simp [DatabaseConnection.getInstance, h], ?_, ?_, ?_, ?_⟩ <;>
    simp [DatabaseConnection.getInstance, DatabaseConnection.construct, SingletonState.start]

theorem getInstance_single_construction_witness :
    DatabaseConnection.getInstance ⟨some "0", true, 1, 0⟩ = (⟨some "0", true, 1, 0⟩, some "0") :=
  (getInstance_single_construction 0 ⟨some "0", true, 1, 0⟩ "0" rfl).1

/-- C3: each of the known discriminators "Circle", "Rectangle", "Square"
yields the variant whose `draw` prints the literally associated text, and any
unknown discriminator silently falls back to the default `Circle` variant, so
its output is produced. -/
theorem createShape_known_and_fallback (t : String)
    (h1 : t ≠ "Circle") (h2 : t ≠ "Rectangle") (h3 : t ≠ "Square") :
    (ShapeFactory.createShape "Circle").drawOutput = "Drawing circle." ∧
    (ShapeFactory.createShape "Rectangle").drawOutput = "Drawing rectangle." ∧
    (ShapeFactory.createShape "Square").drawOutput = "Drawing square." ∧
    ShapeFactory.createShape t = Shape.Circle ∧
    (ShapeFactory.createShape t).drawOutput = "Drawing circle." := by
  have hfall : ShapeFactory.createShape t = Shape.Circle := by
    simp [ShapeFactory.createShape, h1, h2, h3]
  exact ⟨by decide, by decide, by decide, hfall, by rw [hfall]; rfl⟩

theorem createShape_known_and_fallback_witness :
    (ShapeFactory.createShape "Triangle").drawOutput = "Drawing circle." :=
  (createShape_known_and_fallback "Triangle" (by decide) (by decide) (by decide)).2.2.2.2

/-- C4: after `setDiscountStrategy s`, `getTotalPrice` is the new strategy `s`
applied to the sum of price × quantity over the current items; neither the
previously held strategy nor any cached value appears, and the items are
unchanged. -/
theorem setDiscountStrategy_then_total (c : Cart) (s : Strategy) :
    (c.setDiscountStrategy s).getTotalPrice
      = s ((c.items.map (fun item => item.price * item.quantity)).sum) ∧
    (c.setDiscountStrategy s).items = c.items ∧
    (c.setDiscountStrategy s).strategy = s := by
  refine ⟨?_, rfl, rfl⟩
  simp [Cart.setDiscountStrategy, Cart.getTotalPrice, foldl_price_qty_eq_sum]

/-- C5: the cost of a decorator chain is the base cost plus the sum of the
layers' fixed increments, hence the same for any wrap order of the same
layers; in particular 100 wrapped by the +50 Milk layer and the +20 Sugar
layer is 170 with either layer outermost. -/
theorem decorator_cost_commutative (ls ls' : List Layer) (c : Coffee) (h : ls.Perm ls') :
    (applyLayers ls c).getCost = c.getCost + (ls.map Layer.increment).sum ∧
    (applyLayers ls c).getCost = (applyLayers ls' c).getCost ∧
    Coffee.getCost (.SugarDecorator (.MilkDecorator .PlainCoffee)) = 170 ∧
    Coffee.getCost (.MilkDecorator (.SugarDecorator .PlainCoffee)) = 170 := by
  refine ⟨applyLayers_getCost ls c, ?_, by norm_num [Coffee.getCost], by norm_num [Coffee.getCost]⟩
  rw [applyLayers_getCost, applyLayers_getCost, (h.map Layer.increment).sum_eq]

theorem decorator_cost_commutative_witness :
    (applyLayers [Layer.milk, Layer.sugar] Coffee.PlainCoffee).getCost
      = (applyLayers [Layer.sugar, Layer.milk] Coffee.PlainCoffee).getCost :=
  (decorator_cost_commutative [Layer.milk, Layer.sugar] [Layer.sugar, Layer.milk]
    Coffee.PlainCoffee (by decide)).2.1

/-- C6: the description of a decorator chain is the base description with each
layer's fixed suffix appended in construction-nesting order, innermost first;
in particular `SugarDecorator(MilkDecorator(PlainCoffee()))` describes as
"Plain Coffee Milk Sugar". -/
theorem decorator_description_order :
    (∀ (c : Coffee) (l : Layer), (l.wrap c).getDescription = c.getDescription ++ l.suffix) ∧
    (∀ (ls : List Layer) (c : Coffee),
      (applyLayers ls c).getDescription
        = ls.foldl (fun d l => d ++ l.suffix) c.getDescription) ∧
    Coffee.getDescription (.SugarDecorator (.MilkDecorator .PlainCoffee))
      = "Plain Coffee Milk Sugar" := by
  refine ⟨?_, applyLayers_getDescription, rfl⟩
  intro c l
  cases l <;> rfl

/-- C7 as stated is false: `addTopping` pushes onto a list, so swapping the
two `addTopping` calls of the driver's configuration changes the built
pizza's `toppings` field — the result is not independent of the order of all
setter calls. -/
theorem builder_call_order_counterexample :
    (runCalls {} [BuilderCall.addTopping "Pepperoni", BuilderCall.addTopping "Cheese",
        BuilderCall.setSize "Large", BuilderCall.setCrust "Thin",
        BuilderCall.setSauce "Spicy"]).build.toppings = ["Pepperoni", "Cheese"] ∧
    (runCalls {} canonicalCalls).build.toppings = ["Cheese", "Pepperoni"] ∧
    (runCalls {} [BuilderCall.addTopping "Pepperoni", BuilderCall.addTopping "Cheese",
        BuilderCall.setSize "Large", BuilderCall.setCrust "Thin",
        BuilderCall.setSauce "Spicy"]).build
      ≠ (runCalls {} canonicalCalls).build := by
  refine ⟨rfl, rfl, ?_⟩
  decide

/-- C7 (amended): configuring size "Large", crust "Thin", toppings
["Cheese","Pepperoni"], sauce "Spicy" and building yields a `Pizza` whose
four fields exactly equal those configured values, for every order of the
setter calls that keeps the two `addTopping` calls in their relative order
(swapping them reorders the toppings list); each setter modifies only its own
field and leaves the other builder fields unchanged. -/
theorem builder_fields_as_configured (calls : List BuilderCall)
    (hperm : calls.Perm canonicalCalls)
    (htop : calls.filterMap BuilderCall.toppingArg = ["Cheese", "Pepperoni"]) :
    (runCalls {} calls).build
      = { size := "Large", crust := "Thin",
          toppings := ["Cheese", "Pepperoni"], sauce := "Spicy" } ∧
    (∀ (b : CustomPizzaBuilder) (k : BuilderCall),
      (BuilderCall.apply b k).size = k.sizeArg.getD b.size ∧
      (BuilderCall.apply b k).crust = k.crustArg.getD b.crust ∧
      (BuilderCall.apply b k).sauce = k.sauceArg.getD b.sauce ∧
      (BuilderCall.apply b k).toppings = b.toppings ++ k.toppingArg.toList) := by
  constructor
  · have hsz : calls.filterMap BuilderCall.sizeArg = ["Large"] := by
      have h := hperm.filterMap BuilderCall.sizeArg
      rw [show canonicalCalls.filterMap BuilderCall.sizeArg = ["Large"] from rfl] at h
      exact List.perm_singleton.mp h
    have hcr : calls.filterMap BuilderCall.crustArg = ["Thin"] := by
      have h := hperm.filterMap BuilderCall.crustArg
      rw [show canonicalCalls.filterMap BuilderCall.crustArg = ["Thin"] from rfl] at h
      exact List.perm_singleton.mp h
    have hsa : calls.filterMap BuilderCall.sauceArg = ["Spicy"] := by
      have h := hperm.filterMap BuilderCall.sauceArg
      rw [show canonicalCalls.filterMap BuilderCall.sauceArg = ["Spicy"] from rfl] at h
      exact List.perm_singleton.mp h
    have h1 := runCalls_size {} calls
    have h2 := runCalls_crust {} calls
    have h3 := runCalls_sauce {} calls
    have h4 := runCalls_toppings {} calls
    rw [hsz] at h1
    rw [hcr] at h2
    rw [hsa] at h3
    rw [htop] at h4
    show CustomPizzaBuilder.build (runCalls {} calls) = _
    simp [CustomPizzaBuilder.build, Pizza.mk.injEq, h1, h2, h3, h4]
  · intro b k
    cases k <;>
      simp [BuilderCall.apply, BuilderCall.sizeArg, BuilderCall.crustArg,
        BuilderCall.sauceArg, BuilderCall.toppingArg, Option.toList,
        CustomPizzaBuilder.setSize, CustomPizzaBuilder.setCrust,
        CustomPizzaBuilder.addTopping, CustomPizzaBuilder.setSauce]

theorem builder_fields_as_configured_witness :
    (runCalls {} [BuilderCall.setSauce "Spicy", BuilderCall.addTopping "Cheese",
        BuilderCall.setCrust "Thin", BuilderCall.addTopping "Pepperoni",
        BuilderCall.setSize "Large"]).build
      = { size := "Large", crust := "Thin",
          toppings := ["Cheese", "Pepperoni"], sauce := "Spicy" } :=
  (builder_fields_as_configured
    [BuilderCall.setSauce "Spicy", BuilderCall.addTopping "Cheese",
     BuilderCall.setCrust "Thin", BuilderCall.addTopping "Pepperoni",
     BuilderCall.setSize "Large"] (by decide) (by decide)).1

/-- C8: after `unsubscribe o`, a subsequent state change notifies exactly the
remaining subscribers in order, each with the new reading, and never `o`; and
unsubscribing a reference that is not subscribed leaves the station (in
particular its subscriber list) unchanged and signals no error. -/
theorem unsubscribe_removes_target (s : WeatherStation) (o : ObserverRef) (d : WeatherData) :
    ((s.unsubscribe o).setWeatherData d).2
      = (s.observers.filter (fun x => x ≠ o)).map (fun x => (x, d)) ∧
    (∀ x, (o, x) ∉ ((s.unsubscribe o).setWeatherData d).2) ∧
    (o ∉ s.observers → s.unsubscribe o = s) := by
  refine ⟨rfl, ?_, ?_⟩
  · intro x hx
    simp only [WeatherStation.setWeatherData, WeatherStation.unsubscribe,
      WeatherStation.notify, List.mem_map, List.mem_filter] at hx
    obtain ⟨a, ⟨_, ha⟩, heq⟩ := hx
    have : a = o := congrArg Prod.fst heq
    simp [this] at ha
  · intro h
    have hfil : s.observers.filter (fun obs => obs ≠ o) = s.observers := by
      apply List.filter_eq_self.mpr
      intro a ha
      have hne : a ≠ o := fun hao => h (hao ▸ ha)
      simpa using hne
    show { s with observers := s.observers.filter (fun obs => obs ≠ o) } = s
    rw [hfil]

theorem unsubscribe_removes_target_witness :
    WeatherStation.unsubscribe ⟨[1, 2], ⟨0, 0⟩⟩ 3 = ⟨[1, 2], ⟨0, 0⟩⟩ :=
  (unsubscribe_removes_target ⟨[1, 2], ⟨0, 0⟩⟩ 3 ⟨35, 20⟩).2.2 (by decide)

/-- C9: none of the discount or builder operations validates its inputs: a
flat discount larger than the pre-discount total yields a negative result, a
negative percentage rate is applied as given (raising the price), and the
builder accepts an empty topping list — each operation totally computes a
value and signals no error. -/
theorem operations_accept_unvalidated_inputs (amount price rate : ℚ) (h : price < amount) :
    FlatDiscountStrategy amount price = price - amount ∧
    FlatDiscountStrategy amount price < 0 ∧
    FlatDiscountStrategy 30 20 = -10 ∧
    PercentageDiscountStrategy rate price = price * (1 - rate / 100) ∧
    PercentageDiscountStrategy (-50) 100 = 150 ∧
    (CustomPizzaBuilder.build {}).toppings = [] := by
  refine ⟨rfl, ?_, by norm_num [FlatDiscountStrategy], rfl,
    by norm_num [PercentageDiscountStrategy], rfl⟩
  simp only [FlatDiscountStrategy]
  linarith

theorem operations_accept_unvalidated_inputs_witness :
    FlatDiscountStrategy 30 20 < 0 :=
  (operations_accept_unvalidated_inputs 30 20 10 (by norm_num)).2.1

/-- C10: `unsubscribe` filters by reference identity, so for an observer
subscribed twice a single `unsubscribe` call removes every occurrence: the
observer occurs zero times afterwards, receives no notification on a
subsequent state change, and the list equals what unsubscribing from the
original station gives. -/
theorem unsubscribe_removes_all_occurrences (s : WeatherStation) (o : ObserverRef)
    (d : WeatherData) :
    ((s.subscribe o).subscribe o).observers.count o = s.observers.count o + 2 ∧
    (((s.subscribe o).subscribe o).unsubscribe o).observers.count o = 0 ∧
    (∀ x, (o, x) ∉ ((((s.subscribe o).subscribe o).unsubscribe o).setWeatherData d).2) ∧
    ((s.subscribe o).subscribe o).unsubscribe o = s.unsubscribe o := by
  refine ⟨?_, ?_, ?_, ?_⟩
  · simp [WeatherStation.subscribe]
  · rw [List.count_eq_zero]
    intro hmem
    simp [WeatherStation.subscribe, WeatherStation.unsubscribe, List.mem_filter] at hmem
  · intro x hx
    simp only [WeatherStation.setWeatherData, WeatherStation.subscribe,
      WeatherStation.unsubscribe, WeatherStation.notify, List.mem_map,
      List.mem_filter] at hx
    obtain ⟨a, ⟨_, ha⟩, heq⟩ := hx
    have : a = o := congrArg Prod.fst heq
    simp [this] at ha
  · simp [WeatherStation.subscribe, WeatherStation.unsubscribe,
      WeatherStation.mk.injEq, List.filter_append]

theorem unsubscribe_removes_all_occurrences_witness :
    (((WeatherStation.init.subscribe 7).subscribe 7).unsubscribe 7).observers.count 7 = 0 :=
  (unsubscribe_removes_all_occurrences WeatherStation.init 7 ⟨35, 20⟩).2.1

end DesignPatternTS
